import Mathlib

/-!
Verification of the `excel-quality-check` data-quality tool
(`src/excel_quality_check.py`, class `ExcelQualityChecker`) against its
natural-language specification.

The pandas `DataFrame` loaded by the checker is embedded shallowly: a
dataset is an ordered list of typed columns, a numeric column holds
`Option ℚ` cells (`none` models a `NaN`/missing cell, `ℚ` models the
float value exactly), a text column holds `Option (List Char)` cells
(Python strings are modelled as character lists, since the checks are
per-character).  Python float arithmetic is modelled by exact rational
arithmetic; a float `NaN` produced by a `0/0` division is modelled by
`none`.  Each method of the class becomes a Lean function of the same
name over this model.
-/

/-- A Python string, modelled as its list of characters. -/
abbrev PyStr := List Char

/-- One cell value, tagged with the dtype of its column, for whole-row
comparisons (`DataFrame.duplicated`).  `none` is a missing cell; pandas
treats missing-equals-missing as equal, which the derived decidable
equality on `Option` reproduces. -/
inductive CellV where
  | num (v : Option ℚ)
  | txt (s : Option PyStr)
deriving DecidableEq

/-- A dataframe column: its name and its cells, tagged by dtype.
`numeric` corresponds to an `np.number` dtype (selected by
`select_dtypes(include=[np.number])`), `text` to the `object` dtype
(selected by `select_dtypes(include=['object'])`). -/
inductive Column where
  | numeric (name : String) (cells : List (Option ℚ))
  | text (name : String) (cells : List (Option PyStr))
deriving DecidableEq

/-- Name of a column. -/
def Column.name : Column → String
  | .numeric nm _ => nm
  | .text nm _ => nm

/-- Number of cells of a column. -/
def Column.length : Column → ℕ
  | .numeric _ cells => cells.length
  | .text _ cells => cells.length

/-- Count of missing (`NaN`) cells of a column (`df[col].isnull().sum()`). -/
def Column.nullCount : Column → ℕ
  | .numeric _ cells => cells.countP (·.isNone)
  | .text _ cells => cells.countP (·.isNone)

/-- Cell of a column at row `i` (rows past the end read as missing; the
dataframe invariant makes every access in range). -/
def Column.cellAt : Column → ℕ → CellV
  | .numeric _ cells, i => .num (cells.getD i none)
  | .text _ cells, i => .txt (cells.getD i none)

/-- The loaded dataframe `self.df`: an ordered list of named columns. -/
structure Dataset where
  cols : List Column

/-- Python `len(self.df)`: the row count.  All columns of a dataframe have the
same length, so the length of the first column is the row count. -/
def Dataset.nrows (ds : Dataset) : ℕ :=
  match ds.cols with
  | [] => 0
  | c :: _ => c.length

/-- The dataframe invariant: every column has `nrows` cells and column
names are unique (pandas columns are a dict of unique labels). -/
def Dataset.Wf (ds : Dataset) : Prop :=
  (∀ c ∈ ds.cols, c.length = ds.nrows) ∧ (ds.cols.map Column.name).Nodup

instance (ds : Dataset) : Decidable ds.Wf := by
  unfold Dataset.Wf; infer_instance

/-- Row `i` of the dataframe, as the list of its cells in column order. -/
def Dataset.row (ds : Dataset) (i : ℕ) : List CellV :=
  ds.cols.map (·.cellAt i)

/-- All rows of the dataframe, in order. -/
def Dataset.rowsList (ds : Dataset) : List (List CellV) :=
  (List.range ds.nrows).map ds.row

/-! ### Rounding

`round(x, 2)` in Python rounds to two decimal places, resolving ties to
the nearest even last digit (banker's rounding).  Modelled exactly on
`ℚ`. -/

/-- Round a rational to the nearest integer, ties to even. -/
def rhe (x : ℚ) : ℤ :=
  if x - ⌊x⌋ < 1/2 then ⌊x⌋
  else if 1/2 < x - ⌊x⌋ then ⌊x⌋ + 1
  else if ⌊x⌋ % 2 = 0 then ⌊x⌋ else ⌊x⌋ + 1

/-- Python `round(x, 2)`: round to two decimal places. -/
def round2 (x : ℚ) : ℚ := (rhe (100 * x) : ℚ) / 100

/-! ### `check_null_values`

`(self.df.isnull().sum() / len(self.df) * 100)` then `round(pct, 2)`
per column.  On a zero-row dataframe the division is `0/0`, a float
`NaN` (no exception and no guard in the source); `round` of `NaN` is
`NaN`.  `NaN` is modelled by `none`. -/

def check_null_values (ds : Dataset) : List (String × Option ℚ) :=
  ds.cols.map fun c =>
    (c.name,
      if ds.nrows = 0 then none
      else some (round2 ((c.nullCount : ℚ) / (ds.nrows : ℚ) * 100)))

/-! ### `check_duplicates`

`self.df.duplicated()` marks a row `True` exactly when it is identical
(cell by cell, missing-equals-missing) to an earlier row; the first
occurrence stays `False`.  The method returns the row count, the number
of marked rows, and `round(dup/total*100, 2)` (a `NaN`, modelled `none`,
on a zero-row dataframe because of the unguarded `0/0`). -/

structure DupStats where
  total_rows : ℕ
  duplicate_rows : ℕ
  duplicate_percentage : Option ℚ
deriving DecidableEq

/-- Scan of `duplicated()`: count rows already seen, accumulating the
set of rows seen so far. -/
def dupAux (seen : List (List CellV)) : List (List CellV) → ℕ
  | [] => 0
  | r :: rest => (if r ∈ seen then 1 else 0) + dupAux (r :: seen) rest

/-- Number of rows marked by `self.df.duplicated()`. -/
def Dataset.dupRows (ds : Dataset) : ℕ := dupAux [] ds.rowsList

def check_duplicates (ds : Dataset) : DupStats :=
  { total_rows := ds.nrows
    duplicate_rows := ds.dupRows
    duplicate_percentage :=
      if ds.nrows = 0 then none
      else some (round2 ((ds.dupRows : ℚ) / (ds.nrows : ℚ) * 100)) }

/-! ### `check_column_types`

`self.df.dtypes.astype(str).to_dict()`: the dtype label per column
(`read_excel` assigns `float64` to numeric and `object` to text
columns; only the keys of this mapping matter to the claims). -/

def check_column_types (ds : Dataset) : List (String × String) :=
  ds.cols.map fun c =>
    (c.name, match c with
      | .numeric _ _ => "float64"
      | .text _ _ => "object")

/-! ### `detect_outliers`, z-score method

`stats.zscore(self.df[col].dropna())` computes
`(v - mean) / stddev` over the non-missing values only (`ddof=0`,
population standard deviation), yielding an array with one entry per
non-missing value.  The source then evaluates
`self.df[col][z_scores > threshold]`: a boolean mask of the *dropna*
length indexed into the *full* column.  When the column contains a
missing value the lengths differ and pandas raises an indexing error;
`none` models that exception.  When the lengths agree the mask lines up
with the values one-to-one.

With all values identical the standard deviation is `0` and every
z-score is the float `NaN` (`0/0`); `NaN > threshold` is `False`, so no
value is flagged.  The real-valued test `|v - mean| / stddev > t` is
encoded over `ℚ` without square roots: for `t ≥ 0` it is equivalent to
`(v - mean)^2 > t^2 * variance`, and for `t < 0` it always holds (an
absolute value is nonnegative). -/

def zscoreFlag (vals : List ℚ) (t : ℚ) (v : ℚ) : Bool :=
  let mean := vals.sum / (vals.length : ℚ)
  let variance := (vals.map fun w => (w - mean) ^ 2).sum / (vals.length : ℚ)
  if variance = 0 then false
  else if t < 0 then true
  else decide ((v - mean) ^ 2 > t ^ 2 * variance)

def zscoreOutliersCol (col : List (Option ℚ)) (t : ℚ) : Option (List ℚ) :=
  let vals := col.filterMap id
  if vals.length = col.length then some (vals.filter (zscoreFlag vals t)) else none

/-! ### `detect_outliers`, IQR method

`Q1 = self.df[col].quantile(0.25)` and `Q3 = ...quantile(0.75)`: the
pandas quantile with linear interpolation over the sorted non-missing
values.  The flagged values are the cells of the full column below
`Q1 - 1.5*IQR` or above `Q3 + 1.5*IQR`; a `NaN` cell compares `False`
on both sides and is never flagged, which `Option.bind` reproduces. -/

/-- Linear interpolation at fractional index `h = p*(n-1)` into the
sorted list `s`: the value between the cells at `⌊h⌋` and `⌊h⌋+1`. -/
def qInterp (s : List ℚ) (p : ℚ) : ℚ :=
  s.getD (⌊p * ((s.length : ℚ) - 1)⌋).toNat 0
    + (p * ((s.length : ℚ) - 1) - ((⌊p * ((s.length : ℚ) - 1)⌋ : ℤ) : ℚ))
      * (s.getD ((⌊p * ((s.length : ℚ) - 1)⌋).toNat + 1)
            (s.getD (⌊p * ((s.length : ℚ) - 1)⌋).toNat 0)
          - s.getD (⌊p * ((s.length : ℚ) - 1)⌋).toNat 0)

/-- Pandas `Series.quantile(p)` (linear interpolation) over the sorted
non-missing values. -/
def quantileQ (xs : List ℚ) (p : ℚ) : ℚ :=
  qInterp (List.insertionSort (· ≤ ·) xs) p

/-- The low and high fences `Q1 - 1.5*IQR` and `Q3 + 1.5*IQR`. -/
def iqrFences (vals : List ℚ) : ℚ × ℚ :=
  (quantileQ vals (1/4) - 3/2 * (quantileQ vals (3/4) - quantileQ vals (1/4)),
   quantileQ vals (3/4) + 3/2 * (quantileQ vals (3/4) - quantileQ vals (1/4)))

def iqrOutliersCol (col : List (Option ℚ)) : List ℚ :=
  col.filterMap fun c => c.bind fun v =>
    if v < (iqrFences (col.filterMap id)).1 ∨ (iqrFences (col.filterMap id)).2 < v
    then some v else none

/-- Source `detect_outliers(method='zscore', threshold)`: the z-score pass over
the numeric columns in order; the first column that raises aborts the
whole call (`none`). -/
def zOutGo (t : ℚ) : List Column → Option (List (String × List ℚ))
  | [] => some []
  | .numeric nm cells :: rest =>
      (zscoreOutliersCol cells t).bind fun o =>
        (zOutGo t rest).map fun r => (nm, o) :: r
  | .text _ _ :: rest => zOutGo t rest

def detect_outliers_z (ds : Dataset) (t : ℚ) : Option (List (String × List ℚ)) :=
  zOutGo t ds.cols

/-! ### `check_format_consistency`

Over the `object` (text) columns, counting over the non-missing cells:
`mixed_case` counts `s != s.lower() and s != s.upper()`,
`leading_trailing_spaces` counts `str(s).strip() != str(s)`, and
`special_characters` counts `not str(s).isalnum()`.  Python's
`str.isalnum` is `False` on the empty string (it requires at least one
character, all alphanumeric), so an empty string is counted under
`special_characters`. -/

structure FormatIssues where
  mixed_case : ℕ
  leading_trailing_spaces : ℕ
  special_characters : ℕ
deriving DecidableEq

/-- Python `s.lower()` (case mapping modelled on the `Char.toLower` table). -/
def pyLower (s : PyStr) : PyStr := s.map Char.toLower

/-- Python `s.upper()`. -/
def pyUpper (s : PyStr) : PyStr := s.map Char.toUpper

/-- Python `s.strip()`: drop whitespace from both ends. -/
def pyStrip (s : PyStr) : PyStr :=
  ((s.dropWhile Char.isWhitespace).reverse.dropWhile Char.isWhitespace).reverse

/-- Python `s.isalnum()`: nonempty and every character alphanumeric. -/
def pyIsAlnum (s : PyStr) : Bool := !s.isEmpty && s.all Char.isAlphanum

def fmtForCells (cells : List (Option PyStr)) : FormatIssues :=
  let vs := cells.filterMap id
  { mixed_case := vs.countP fun s => !(s == pyLower s) && !(s == pyUpper s)
    leading_trailing_spaces := vs.countP fun s => !(pyStrip s == s)
    special_characters := vs.countP fun s => !pyIsAlnum s }

def check_format_consistency (ds : Dataset) : List (String × FormatIssues) :=
  ds.cols.filterMap fun c =>
    match c with
    | .text nm cells => some (nm, fmtForCells cells)
    | .numeric _ _ => none

/-! ### `validate_formulas`

For every column, `self.df[col].astype(str).str.contains(pattern).any()`
for each of the seven error tokens.  `str.contains` interprets its
argument as a *regular expression* (the pandas default `regex=True`):
six of the seven tokens contain no regex metacharacter and match as
literal substrings, but in `"#NAME?"` the `?` quantifier makes the `E`
optional, so the pattern matches any cell containing the substring
`"#NAM"`.  `astype(str)` renders a missing cell as the string `"nan"`
and a float as its decimal text (modelled below; what matters to the
scan is the presence of the `#`-tokens, which no numeric rendering
contains). -/

def natText (n : ℕ) : PyStr := Nat.toDigits 10 n

def intText (i : ℤ) : PyStr :=
  if i < 0 then '-' :: natText i.natAbs else natText i.natAbs

/-- Text rendering of a numeric cell under `astype(str)`. -/
def ratText (q : ℚ) : PyStr :=
  if q.den = 1 then intText q.num ++ ['.', '0']
  else intText q.num ++ '/' :: natText q.den

/-- Rendering `astype(str)` over a column's cells. -/
def Column.cellTexts : Column → List PyStr
  | .numeric _ cells => cells.map fun c => (c.map ratText).getD "nan".data
  | .text _ cells => cells.map fun c => c.getD "nan".data

/-- Substring test: `p` occurs contiguously in `s`. -/
def containsSub (p : PyStr) : PyStr → Bool
  | [] => p.isPrefixOf []
  | c :: rest => p.isPrefixOf (c :: rest) || containsSub p rest

/-- The seven canned error tokens of the source. -/
def errTokens : List PyStr :=
  ["#DIV/0!".data, "#N/A".data, "#NAME?".data, "#NULL!".data,
   "#NUM!".data, "#REF!".data, "#VALUE!".data]

/-- Pandas `str.contains(tok)` with the default regex interpretation: every
token but `"#NAME?"` is a literal; in `"#NAME?"` the `?` makes the `E`
optional, which is equivalent to containing `"#NAM"`. -/
def tokenMatches (tok : PyStr) (s : PyStr) : Bool :=
  if tok = "#NAME?".data then containsSub "#NAM".data s
  else containsSub tok s

def validate_formulas (ds : Dataset) : List (String × List PyStr) :=
  ds.cols.filterMap fun c =>
    let errs := errTokens.filter fun tok => c.cellTexts.any (tokenMatches tok)
    if errs.isEmpty then none else some (c.name, errs)

/-! ### `generate_cleaning_recommendations`

The free-text recommendations, abstracted to one constructor per
template string (the arguments are exactly the values interpolated into
the message). -/

inductive Recommendation where
  /-- "Consider removing column '{col}' due to high missing values ({pct}%)" -/
  | removeColumn (name : String) (pct : ℚ)
  /-- "Handle missing values in column '{col}' ({pct}%)" -/
  | handleMissing (name : String) (pct : ℚ)
  /-- "Remove {n} duplicate rows" -/
  | removeDuplicates (n : ℕ)
  /-- "Standardize case formatting in column '{col}'" -/
  | standardizeCase (name : String)
  /-- "Remove leading/trailing spaces in column '{col}'" -/
  | trimSpaces (name : String)
deriving DecidableEq

/-- The null-value block of the loop: `if pct > 0:` then
`if pct > 50:` remove else handle.  A `NaN` percentage (zero-row
dataframe) fails `pct > 0` and yields nothing. -/
def nullRecRow : String × Option ℚ → List Recommendation
  | (_, none) => []
  | (nm, some p) =>
      if 0 < p then
        if 50 < p then [.removeColumn nm p] else [.handleMissing nm p]
      else []

def fmtRecRow : String × FormatIssues → List Recommendation
  | (nm, iss) =>
      (if 0 < iss.mixed_case then [.standardizeCase nm] else [])
        ++ (if 0 < iss.leading_trailing_spaces then [.trimSpaces nm] else [])

def generate_cleaning_recommendations (ds : Dataset) : List Recommendation :=
  (check_null_values ds).flatMap nullRecRow
    ++ (if 0 < (check_duplicates ds).duplicate_rows
        then [.removeDuplicates (check_duplicates ds).duplicate_rows] else [])
    ++ (check_format_consistency ds).flatMap fmtRecRow

/-! ### `run_basic_checks` and `run_advanced_checks` -/

/-- A value of the heterogeneous result mapping. -/
inductive RVal where
  | nulls (l : List (String × Option ℚ))
  | dups (d : DupStats)
  | types (l : List (String × String))
  | outl (l : List (String × List ℚ))
  | fmt (l : List (String × FormatIssues))
  | ferr (l : List (String × List PyStr))
  | recs (l : List Recommendation)
  | nested (l : List (String × RVal))

/-- Modelled from the spec: `run_basic_checks` is called by
`run_advanced_checks` (line 155) and by `main` but is not defined in
`src/excel_quality_check.py`.  The spec fixes its contract: "a mapping
with keys `null_values`, `duplicates`, `column_types` (basic run)", and
`main` reads `results["basic_checks"]["null_values"]` and
`["duplicates"]`, consistent with that shape. -/
def run_basic_checks (ds : Dataset) : List (String × RVal) :=
  [("null_values", .nulls (check_null_values ds)),
   ("duplicates", .dups (check_duplicates ds)),
   ("column_types", .types (check_column_types ds))]

/-- Source `run_advanced_checks`: the five-entry dict literal of the source.
`detect_outliers()` (default z-score, threshold 3) can raise on a
numeric column with missing cells, aborting the call (`none`). -/
def run_advanced_checks (ds : Dataset) : Option (List (String × RVal)) :=
  (detect_outliers_z ds 3).map fun o =>
    [("basic_checks", .nested (run_basic_checks ds)),
     ("outliers", .outl o),
     ("format_consistency", .fmt (check_format_consistency ds)),
     ("formula_errors", .ferr (validate_formulas ds)),
     ("cleaning_recommendations", .recs (generate_cleaning_recommendations ds))]

/-! ## Rounding lemmas -/

theorem rhe_cases (x : ℚ) : rhe x = ⌊x⌋ ∨ rhe x = ⌊x⌋ + 1 := by
  unfold rhe; split_ifs <;> simp

theorem rhe_nonneg {x : ℚ} (h : 0 ≤ x) : 0 ≤ rhe x := by
  have hf : (0 : ℤ) ≤ ⌊x⌋ := Int.floor_nonneg.mpr h
  rcases rhe_cases x with h1 | h1 <;> omega

theorem rhe_le_int {x : ℚ} {m : ℤ} (h : x ≤ m) : rhe x ≤ m := by
  have hf : ⌊x⌋ ≤ m := by exact_mod_cast (Int.floor_le x).trans h
  by_cases he : ⌊x⌋ = m
  · have hb : x - ⌊x⌋ < 1 / 2 := by rw [he]; linarith
    unfold rhe; rw [if_pos hb]; omega
  · rcases rhe_cases x with h1 | h1 <;> omega

theorem round2_nonneg {x : ℚ} (h : 0 ≤ x) : 0 ≤ round2 x := by
  unfold round2
  have h1 : (0 : ℤ) ≤ rhe (100 * x) := rhe_nonneg (by linarith)
  have h2 : (0 : ℚ) ≤ (rhe (100 * x) : ℚ) := by exact_mod_cast h1
  linarith

theorem round2_le_100 {x : ℚ} (h : x ≤ 100) : round2 x ≤ 100 := by
  unfold round2
  have h1 : rhe (100 * x) ≤ (10000 : ℤ) := rhe_le_int (by push_cast; linarith)
  have h2 : (rhe (100 * x) : ℚ) ≤ 10000 := by exact_mod_cast h1
  linarith

theorem nullCount_le_length (c : Column) : c.nullCount ≤ c.length := by
  cases c <;> exact List.countP_le_length _

/-! ## Concrete datasets used as inputs below -/

/-- A dataframe with no columns (and hence no rows). -/
def dsNoCols : Dataset := ⟨[]⟩

/-- One numeric column, zero rows. -/
def dsZeroRows : Dataset := ⟨[Column.numeric "a" []]⟩

/-- One numeric column with one missing cell out of two rows. -/
def dsNulls : Dataset := ⟨[Column.numeric "a" [some 1, none]]⟩

/-- One text column holding the single cell `"#NAM"`. -/
def dsNam : Dataset := ⟨[Column.text "c" [some "#NAM".data]]⟩

/-- One text column holding the single cell `""`. -/
def dsEmptyStr : Dataset := ⟨[Column.text "s" [some []]]⟩

/-! ## C2: null percentages -/

/-- C2: on every well-formed dataset with at least one row,
`check_null_values` pairs each column with
`round((missing cells / row count) * 100, 2)`, and that value lies
between 0 and 100 inclusive. -/
theorem check_null_values_spec (ds : Dataset) (hwf : ds.Wf) (hn : 0 < ds.nrows) :
    ∀ p ∈ check_null_values ds, ∃ c ∈ ds.cols,
      p = (c.name, some (round2 ((c.nullCount : ℚ) / (ds.nrows : ℚ) * 100)))
      ∧ 0 ≤ round2 ((c.nullCount : ℚ) / (ds.nrows : ℚ) * 100)
      ∧ round2 ((c.nullCount : ℚ) / (ds.nrows : ℚ) * 100) ≤ 100 := by
  intro p hp
  unfold check_null_values at hp
  rw [List.mem_map] at hp
  obtain ⟨c, hc, rfl⟩ := hp
  have hn0 : ds.nrows ≠ 0 := by omega
  have hnq : (0 : ℚ) < (ds.nrows : ℚ) := by exact_mod_cast hn
  have hx0 : 0 ≤ (c.nullCount : ℚ) / (ds.nrows : ℚ) * 100 := by positivity
  have hcnt : (c.nullCount : ℚ) ≤ (ds.nrows : ℚ) := by
    have h1 : c.nullCount ≤ ds.nrows := by
      have := nullCount_le_length c
      have := hwf.1 c hc
      omega
    exact_mod_cast h1
  have hx100 : (c.nullCount : ℚ) / (ds.nrows : ℚ) * 100 ≤ 100 := by
    have hd : (c.nullCount : ℚ) / (ds.nrows : ℚ) ≤ 1 := (div_le_one hnq).mpr hcnt
    nlinarith
  exact ⟨c, hc, by rw [if_neg hn0], round2_nonneg hx0, round2_le_100 hx100⟩

/-- Witness for C2 at a concrete dataset (one column, one missing cell
out of two rows). -/
theorem check_null_values_spec_witness :
    dsNulls.Wf ∧ 0 < dsNulls.nrows ∧
      ∀ p ∈ check_null_values dsNulls, ∃ c ∈ dsNulls.cols,
        p = (c.name, some (round2 ((c.nullCount : ℚ) / (dsNulls.nrows : ℚ) * 100)))
        ∧ 0 ≤ round2 ((c.nullCount : ℚ) / (dsNulls.nrows : ℚ) * 100)
        ∧ round2 ((c.nullCount : ℚ) / (dsNulls.nrows : ℚ) * 100) ≤ 100 :=
  ⟨by decide, by decide, check_null_values_spec dsNulls (by decide) (by decide)⟩

/-! ## C10: zero-row dataset -/

/-- C10 (failing input): on the zero-row dataset the null profiler and
the duplicate profiler do not guard the division by the row count: the
`0/0` float division yields `NaN` (modelled `none`), an undefined
result that flows past the check boundary, not a defined fallback such
as 0%. -/
theorem zero_rows_unguarded :
    check_null_values dsZeroRows = [("a", none)]
    ∧ check_duplicates dsZeroRows =
        { total_rows := 0, duplicate_rows := 0, duplicate_percentage := none } := by
  constructor <;> rfl

/-! ## C8: formula-error tokens -/

/-- C8 (failing input): a column whose only cell is the text `"#NAM"`
is reported with the token `"#NAME?"`, although `"#NAME?"` does not
occur as a substring of `"#NAM"`: `str.contains` treats the token as a
regular expression, and the `?` quantifier makes the `E` optional. -/
theorem validate_formulas_regex_bug :
    validate_formulas dsNam = [("c", ["#NAME?".data])]
    ∧ containsSub "#NAME?".data "#NAM".data = false := by
  constructor <;> decide

/-! ## C7: special characters -/

/-- C7 counterexample: a text column whose only cell is the empty
string is counted under `special_characters` (Python `"".isalnum()` is
`False`), although the empty string contains no character that is not
alphanumeric. -/
theorem special_characters_empty_string_cex :
    check_format_consistency dsEmptyStr =
      [("s", { mixed_case := 0, leading_trailing_spaces := 0, special_characters := 1 })]
    ∧ ([] : PyStr).all Char.isAlphanum = true := by
  constructor <;> decide

/-! ## C1: result shape of the advanced run -/

/-- C1 counterexample: at a concrete dataset on which the advanced run
completes, its top-level key list is
`basic_checks, outliers, format_consistency, formula_errors,
cleaning_recommendations` — not the flat seven-key list of the claim:
the three basic-run keys are nested under `basic_checks`. -/
theorem run_advanced_checks_keys_cex :
    (run_advanced_checks dsNoCols).map (List.map Prod.fst) =
      some ["basic_checks", "outliers", "format_consistency", "formula_errors",
        "cleaning_recommendations"]
    ∧ (["basic_checks", "outliers", "format_consistency", "formula_errors",
        "cleaning_recommendations"] : List String) ≠
      ["null_values", "duplicates", "column_types", "outliers",
        "format_consistency", "formula_errors", "cleaning_recommendations"] := by
  exact ⟨rfl, by decide⟩

/-- C1 (amended): whenever the advanced run completes without raising,
the returned mapping has the fixed top-level keys `basic_checks`,
`outliers`, `format_consistency`, `formula_errors`,
`cleaning_recommendations`, and the mapping nested under `basic_checks`
has the fixed keys `null_values`, `duplicates`, `column_types`. -/
theorem run_advanced_checks_shape (ds : Dataset) (r : List (String × RVal))
    (h : run_advanced_checks ds = some r) :
    r.map Prod.fst =
      ["basic_checks", "outliers", "format_consistency", "formula_errors",
        "cleaning_recommendations"]
    ∧ (run_basic_checks ds).map Prod.fst = ["null_values", "duplicates", "column_types"] := by
  unfold run_advanced_checks at h
  cases hz : detect_outliers_z ds 3 with
  | none => rw [hz] at h; simp at h
  | some o =>
      rw [hz] at h
      simp only [Option.map_some'] at h
      obtain rfl := (Option.some.injEq _ _).mp h
      exact ⟨rfl, rfl⟩

/-- Witness for C1 (amended) at a concrete dataset. -/
theorem run_advanced_checks_shape_witness :
    run_advanced_checks dsNoCols =
      some [("basic_checks", .nested (run_basic_checks dsNoCols)),
        ("outliers", .outl []),
        ("format_consistency", .fmt (check_format_consistency dsNoCols)),
        ("formula_errors", .ferr (validate_formulas dsNoCols)),
        ("cleaning_recommendations", .recs (generate_cleaning_recommendations dsNoCols))]
    ∧ (([("basic_checks", RVal.nested (run_basic_checks dsNoCols)),
        ("outliers", .outl []),
        ("format_consistency", .fmt (check_format_consistency dsNoCols)),
        ("formula_errors", .ferr (validate_formulas dsNoCols)),
        ("cleaning_recommendations", .recs (generate_cleaning_recommendations dsNoCols))] :
          List (String × RVal)).map Prod.fst =
        ["basic_checks", "outliers", "format_consistency", "formula_errors",
          "cleaning_recommendations"]
      ∧ (run_basic_checks dsNoCols).map Prod.fst =
          ["null_values", "duplicates", "column_types"]) :=
  ⟨rfl, run_advanced_checks_shape dsNoCols _ rfl⟩

/-! ## C4 and C5: z-score outliers -/

theorem zscoreFlag_false_of_var_zero {vals : List ℚ} {t v : ℚ}
    (h : (vals.map fun w => (w - vals.sum / (vals.length : ℚ)) ^ 2).sum / (vals.length : ℚ) = 0) :
    zscoreFlag vals t v = false := by
  unfold zscoreFlag
  rw [if_pos h]

/-- C4 (failing input): the z-score detector on the numeric column
`[1, NaN, 2, 3, 100]` raises (the boolean mask computed over the four
non-missing values is indexed into the five-cell column), modelled by
`none`; on the same values without the missing cell it succeeds and
flags nothing at threshold 3.  The missing cell therefore changes which
values are flagged, contradicting the claim. -/
theorem zscore_missing_misalignment :
    zscoreOutliersCol [some 1, none, some 2, some 3, some 100] 3 = none
    ∧ zscoreOutliersCol [some 1, some 2, some 3, some 100] 3 = some [] := by
  constructor
  · rfl
  · show (if ([1, 2, 3, 100] : List ℚ).length =
          ([some 1, some 2, some 3, some 100] : List (Option ℚ)).length
        then some (List.filter (zscoreFlag [1, 2, 3, 100] 3) [1, 2, 3, 100])
        else none) = some []
    rw [if_pos (show ([1, 2, 3, 100] : List ℚ).length =
      ([some 1, some 2, some 3, some 100] : List (Option ℚ)).length from rfl)]
    have hf : ∀ v ∈ ([1, 2, 3, 100] : List ℚ), ¬ zscoreFlag [1, 2, 3, 100] 3 v = true := by
      intro v hv
      unfold zscoreFlag
      norm_num
      fin_cases hv <;> norm_num
    rw [List.filter_eq_nil_iff.mpr hf]

/-- C5 (failing input): on the numeric column `[5, NaN, 5]` — whose
non-missing values are all identical, standard deviation 0 — the
z-score detector raises via the same mask misalignment (`none`) instead
of returning an empty list; on `[5, 5]` (no missing cell) the
zero-variance fallback does produce an empty outlier list. -/
theorem zscore_zero_stddev :
    zscoreOutliersCol [some 5, none, some 5] 3 = none
    ∧ zscoreOutliersCol [some 5, some 5] 3 = some [] := by
  constructor
  · rfl
  · show (if ([5, 5] : List ℚ).length = ([some 5, some 5] : List (Option ℚ)).length
        then some (List.filter (zscoreFlag [5, 5] 3) [5, 5])
        else none) = some []
    rw [if_pos (show ([5, 5] : List ℚ).length =
      ([some 5, some 5] : List (Option ℚ)).length from rfl)]
    have hf : ∀ v ∈ ([5, 5] : List ℚ), ¬ zscoreFlag [5, 5] 3 v = true := by
      intro v _
      rw [zscoreFlag_false_of_var_zero (by norm_num)]
      simp
    rw [List.filter_eq_nil_iff.mpr hf]

/-! ## C6: IQR outliers -/

theorem quantileQ_eval (xs s : List ℚ) (p : ℚ) (i : ℤ)
    (hs : List.insertionSort (· ≤ ·) xs = s)
    (hi : ⌊p * ((s.length : ℚ) - 1)⌋ = i) :
    quantileQ xs p =
      s.getD i.toNat 0 +
        (p * ((s.length : ℚ) - 1) - (i : ℚ)) *
          (s.getD (i.toNat + 1) (s.getD i.toNat 0) - s.getD i.toNat 0) := by
  unfold quantileQ qInterp
  rw [hs, hi]

theorem iqr_example_q1 : quantileQ [1, 2, 3, 4, 5, 100] (1/4) = 9/4 := by
  have hs : List.insertionSort (· ≤ ·) ([1, 2, 3, 4, 5, 100] : List ℚ) = [1, 2, 3, 4, 5, 100] :=
    List.Sorted.insertionSort_eq (by norm_num [List.sorted_cons])
  have hi : ⌊(1/4 : ℚ) * ((([1, 2, 3, 4, 5, 100] : List ℚ).length : ℚ) - 1)⌋ = 1 := by
    rw [show (1/4 : ℚ) * ((([1, 2, 3, 4, 5, 100] : List ℚ).length : ℚ) - 1) = 5/4 by norm_num]
    exact Int.floor_eq_iff.mpr (by norm_num)
  rw [quantileQ_eval _ _ _ _ hs hi]
  norm_num [List.getD_cons_zero, List.getD_cons_succ, Int.toNat_one]

theorem iqr_example_q3 : quantileQ [1, 2, 3, 4, 5, 100] (3/4) = 19/4 := by
  have hs : List.insertionSort (· ≤ ·) ([1, 2, 3, 4, 5, 100] : List ℚ) = [1, 2, 3, 4, 5, 100] :=
    List.Sorted.insertionSort_eq (by norm_num [List.sorted_cons])
  have hi : ⌊(3/4 : ℚ) * ((([1, 2, 3, 4, 5, 100] : List ℚ).length : ℚ) - 1)⌋ = 3 := by
    rw [show (3/4 : ℚ) * ((([1, 2, 3, 4, 5, 100] : List ℚ).length : ℚ) - 1) = 15/4 by norm_num]
    exact Int.floor_eq_iff.mpr (by norm_num)
  rw [quantileQ_eval _ _ _ _ hs hi]
  norm_num [List.getD_cons_zero, List.getD_cons_succ, show Int.toNat 3 = 3 from rfl]

/-- C6: the IQR detector flags exactly the column values below
`Q1 - 1.5*IQR` or above `Q3 + 1.5*IQR` (quantiles over the non-missing
values), and on the column `[1, 2, 3, 4, 5, 100]` it flags exactly
`100` (Q1 = 9/4, Q3 = 19/4, fences `-3/2` and `17/2`). -/
theorem iqrOutliersCol_spec :
    (∀ (col : List (Option ℚ)) (v : ℚ),
      v ∈ iqrOutliersCol col ↔
        v ∈ col.filterMap id ∧
          (v < quantileQ (col.filterMap id) (1/4)
              - 3/2 * (quantileQ (col.filterMap id) (3/4) - quantileQ (col.filterMap id) (1/4))
            ∨ quantileQ (col.filterMap id) (3/4)
              + 3/2 * (quantileQ (col.filterMap id) (3/4) - quantileQ (col.filterMap id) (1/4))
              < v))
    ∧ iqrOutliersCol ([1, 2, 3, 4, 5, 100].map some) = [100] := by
  constructor
  · intro col v
    unfold iqrOutliersCol iqrFences
    rw [List.mem_filterMap]
    constructor
    · rintro ⟨c, hc, hce⟩
      cases c with
      | none => simp at hce
      | some w =>
          rw [Option.some_bind] at hce
          split_ifs at hce with h
          · have hwv : w = v := Option.some.inj hce
            subst hwv
            exact ⟨List.mem_filterMap.mpr ⟨some w, hc, rfl⟩, h⟩
    · rintro ⟨hv, hcond⟩
      obtain ⟨c, hc, hid⟩ := List.mem_filterMap.mp hv
      cases c with
      | none => simp at hid
      | some w =>
          have hwv : w = v := by simpa using hid
          subst hwv
          exact ⟨some w, hc, by rw [Option.some_bind, if_pos hcond]⟩
  · have hfm : (([1, 2, 3, 4, 5, 100] : List ℚ).map some).filterMap id
        = ([1, 2, 3, 4, 5, 100] : List ℚ) := by
      simp
    unfold iqrOutliersCol iqrFences
    simp only [hfm, iqr_example_q1, iqr_example_q3]
    norm_num [List.filterMap_cons]

/-! ## C3: duplicate rows -/

/-- The specification's counting: row `i` is a duplicate exactly when
it coincides, cell by cell (missing-equals-missing), with some earlier
row, i.e. when it occurs among the first `i` rows. -/
def dupSpecCount (rs : List (List CellV)) : ℕ :=
  ((List.range rs.length).filter
    fun i => decide (rs.getD i [] ∈ rs.take i)).length

theorem dupAux_le (rs : List (List CellV)) :
    ∀ seen : List (List CellV), dupAux seen rs ≤ rs.length := by
  induction rs with
  | nil => intro seen; simp [dupAux]
  | cons r rest ih =>
      intro seen
      rw [dupAux, List.length_cons]
      have := ih (r :: seen)
      split_ifs <;> omega

theorem dupAux_eq (rs : List (List CellV)) : ∀ seen : List (List CellV),
    dupAux seen rs = ((List.range rs.length).filter
      fun i => decide (rs.getD i [] ∈ seen ∨ rs.getD i [] ∈ rs.take i)).length := by
  induction rs with
  | nil => intro seen; rfl
  | cons r rest ih =>
      intro seen
      rw [dupAux, ih (r :: seen), List.length_cons, List.range_succ_eq_map, List.filter_cons]
      have hhead :
          (decide ((r :: rest).getD 0 [] ∈ seen ∨ (r :: rest).getD 0 [] ∈ (r :: rest).take 0))
            = decide (r ∈ seen) := by simp
      have htail :
          List.filter
              (fun i => decide ((r :: rest).getD i [] ∈ seen
                ∨ (r :: rest).getD i [] ∈ (r :: rest).take i))
              (List.map Nat.succ (List.range rest.length))
            = List.map Nat.succ (List.filter
                (fun i => decide (rest.getD i [] ∈ (r :: seen) ∨ rest.getD i [] ∈ rest.take i))
                (List.range rest.length)) := by
        rw [List.filter_map]
        congr 1
        apply List.filter_congr
        intro i _
        simp only [Function.comp_apply, List.getD_cons_succ, List.take_succ_cons, List.mem_cons]
        exact decide_eq_decide.mpr (by tauto)
      rw [hhead, htail]
      by_cases hr : r ∈ seen
      · simp [hr]; omega
      · simp [hr]

theorem dupRows_eq_spec (ds : Dataset) : ds.dupRows = dupSpecCount ds.rowsList := by
  unfold Dataset.dupRows dupSpecCount
  rw [dupAux_eq]
  congr 1
  apply List.filter_congr
  intro i _
  simp

theorem dupRows_le (ds : Dataset) (h : 0 < ds.nrows) : ds.dupRows ≤ ds.nrows - 1 := by
  unfold Dataset.dupRows Dataset.rowsList
  obtain ⟨m, hm⟩ : ∃ m, ds.nrows = m + 1 := ⟨ds.nrows - 1, by omega⟩
  rw [hm, List.range_succ_eq_map, List.map_cons]
  have h1 : dupAux [] (ds.row 0 :: ((List.range m).map Nat.succ).map ds.row)
      = dupAux [ds.row 0] (((List.range m).map Nat.succ).map ds.row) := by
    rw [dupAux]; simp
  have h2 := dupAux_le (((List.range m).map Nat.succ).map ds.row) [ds.row 0]
  have h3 : (((List.range m).map Nat.succ).map ds.row).length = m := by simp
  omega

/-- C3: on every dataset with at least one row, `check_duplicates`
counts a row as duplicate exactly when it coincides (cell by cell,
missing-equals-missing) with some earlier row, so the count is at most
`total_rows - 1`, and the percentage is
`round(count/total*100, 2)`. -/
theorem check_duplicates_spec (ds : Dataset) (h : 0 < ds.nrows) :
    (check_duplicates ds).total_rows = ds.nrows
    ∧ (check_duplicates ds).duplicate_rows = dupSpecCount ds.rowsList
    ∧ (check_duplicates ds).duplicate_rows ≤ ds.nrows - 1
    ∧ (check_duplicates ds).duplicate_percentage =
        some (round2 (((check_duplicates ds).duplicate_rows : ℚ) / (ds.nrows : ℚ) * 100)) := by
  refine ⟨rfl, dupRows_eq_spec ds, dupRows_le ds h, ?_⟩
  show (if ds.nrows = 0 then none else some (round2 ((ds.dupRows : ℚ) / (ds.nrows : ℚ) * 100)))
      = _
  rw [if_neg (by omega)]
  rfl

/-- One numeric column whose second row repeats the first. -/
def dsDups : Dataset := ⟨[Column.numeric "a" [some 1, some 1, some 2]]⟩

/-- Witness for C3 at a concrete dataset with one duplicated row. -/
theorem check_duplicates_spec_witness :
    0 < dsDups.nrows ∧
      ((check_duplicates dsDups).total_rows = dsDups.nrows
      ∧ (check_duplicates dsDups).duplicate_rows = dupSpecCount dsDups.rowsList
      ∧ (check_duplicates dsDups).duplicate_rows ≤ dsDups.nrows - 1
      ∧ (check_duplicates dsDups).duplicate_percentage =
          some (round2 (((check_duplicates dsDups).duplicate_rows : ℚ)
            / (dsDups.nrows : ℚ) * 100))) :=
  ⟨by decide, check_duplicates_spec dsDups (by decide)⟩

/-! ## C7 (amended): special characters -/

/-- The string contains at least one character that is not
alphanumeric. -/
def hasNonAlnum (s : PyStr) : Bool := !s.all Char.isAlphanum

/-- One text column holding `"abc!"` and a missing cell. -/
def dsFmt : Dataset := ⟨[Column.text "t" [some "abc!".data, none]]⟩

/-- C7 (amended): for every text column, `special_characters` counts
exactly the non-missing strings on which Python `isalnum` is false:
the empty string, or a string containing a non-alphanumeric character. -/
theorem special_characters_spec (ds : Dataset) :
    ∀ p ∈ check_format_consistency ds, ∃ cells : List (Option PyStr),
      Column.text p.1 cells ∈ ds.cols ∧
      p.2.special_characters =
        (cells.filterMap id).countP (fun s => s.isEmpty || hasNonAlnum s) := by
  intro p hp
  unfold check_format_consistency at hp
  rw [List.mem_filterMap] at hp
  obtain ⟨c, hc, hcp⟩ := hp
  cases c with
  | numeric nm cells => simp at hcp
  | text nm cells =>
      obtain rfl : (nm, fmtForCells cells) = p := by simpa using hcp
      refine ⟨cells, hc, ?_⟩
      show (cells.filterMap id).countP (fun s => !pyIsAlnum s)
          = (cells.filterMap id).countP (fun s => s.isEmpty || hasNonAlnum s)
      apply List.countP_congr
      intro s _
      unfold pyIsAlnum hasNonAlnum
      cases hse : s.isEmpty <;> cases hsa : s.all Char.isAlphanum <;> simp [hse, hsa]

/-- Witness for C7 (amended) at a concrete text column. -/
theorem special_characters_spec_witness :
    ∃ cells : List (Option PyStr),
      Column.text (("t",
        ({ mixed_case := 0, leading_trailing_spaces := 0, special_characters := 1 }
          : FormatIssues)).1) cells ∈ dsFmt.cols ∧
      (("t",
        ({ mixed_case := 0, leading_trailing_spaces := 0, special_characters := 1 }
          : FormatIssues))).2.special_characters =
        (cells.filterMap id).countP (fun s => s.isEmpty || hasNonAlnum s) :=
  special_characters_spec dsFmt
    ("t", { mixed_case := 0, leading_trailing_spaces := 0, special_characters := 1 })
    (by decide)

/-! ## C9: cleaning recommendations -/

/-- The null-value clauses as the spec words them: null percentage
above 50 yields a removal recommendation; otherwise a positive
percentage (necessarily at most 50) yields a handle-missing-values
recommendation. -/
def nullRecRowSpec : String × Option ℚ → List Recommendation
  | (_, none) => []
  | (nm, some p) =>
      if 50 < p then [.removeColumn nm p]
      else if 0 < p then [.handleMissing nm p]
      else []

/-- The recommendation list as the spec describes it: null clauses in
column order, then the duplicate clause, then the per-text-column
formatting clauses in column order. -/
def recsSpec (ds : Dataset) : List Recommendation :=
  (check_null_values ds).flatMap nullRecRowSpec
    ++ (if 0 < (check_duplicates ds).duplicate_rows
        then [.removeDuplicates (check_duplicates ds).duplicate_rows] else [])
    ++ (check_format_consistency ds).flatMap fmtRecRow

theorem nullRecRow_eq_spec : ∀ x, nullRecRow x = nullRecRowSpec x := by
  rintro ⟨nm, po⟩
  cases po with
  | none => rfl
  | some q =>
      simp only [nullRecRow, nullRecRowSpec]
      by_cases h50 : 50 < q
      · rw [if_pos (by linarith : (0 : ℚ) < q), if_pos h50, if_pos h50]
      · by_cases h0 : 0 < q
        · rw [if_pos h0, if_neg h50, if_neg h50, if_pos h0]
        · rw [if_neg h0, if_neg h50, if_neg h0]

theorem mem_nullRecs_removeColumn {l : List (String × Option ℚ)} {nm : String} {p : ℚ} :
    Recommendation.removeColumn nm p ∈ l.flatMap nullRecRow ↔ (nm, some p) ∈ l ∧ 50 < p := by
  rw [List.mem_flatMap]
  constructor
  · rintro ⟨⟨nm1, po⟩, hmem, hin⟩
    cases po with
    | none => simp [nullRecRow] at hin
    | some q =>
        simp only [nullRecRow] at hin
        split_ifs at hin with h0 h50
        · rw [List.mem_singleton] at hin
          simp only [Recommendation.removeColumn.injEq] at hin
          obtain ⟨rfl, rfl⟩ := hin
          exact ⟨hmem, h50⟩
        · simp at hin
        · simp at hin
  · rintro ⟨hmem, h50⟩
    refine ⟨(nm, some p), hmem, ?_⟩
    simp only [nullRecRow]
    rw [if_pos (by linarith : (0 : ℚ) < p), if_pos h50]
    exact List.mem_singleton.mpr rfl

theorem mem_nullRecs_handleMissing {l : List (String × Option ℚ)} {nm : String} {p : ℚ} :
    Recommendation.handleMissing nm p ∈ l.flatMap nullRecRow
      ↔ (nm, some p) ∈ l ∧ 0 < p ∧ ¬ 50 < p := by
  rw [List.mem_flatMap]
  constructor
  · rintro ⟨⟨nm1, po⟩, hmem, hin⟩
    cases po with
    | none => simp [nullRecRow] at hin
    | some q =>
        simp only [nullRecRow] at hin
        split_ifs at hin with h0 h50
        · simp at hin
        · rw [List.mem_singleton] at hin
          simp only [Recommendation.handleMissing.injEq] at hin
          obtain ⟨rfl, rfl⟩ := hin
          exact ⟨hmem, h0, h50⟩
        · simp at hin
  · rintro ⟨hmem, h0, h50⟩
    refine ⟨(nm, some p), hmem, ?_⟩
    simp only [nullRecRow]
    rw [if_pos h0, if_neg h50]
    exact List.mem_singleton.mpr rfl

theorem removeColumn_notin_dup {d : ℕ} {nm : String} {p : ℚ} :
    Recommendation.removeColumn nm p
      ∉ (if 0 < d then [Recommendation.removeDuplicates d] else []) := by
  split_ifs <;> simp

theorem handleMissing_notin_dup {d : ℕ} {nm : String} {p : ℚ} :
    Recommendation.handleMissing nm p
      ∉ (if 0 < d then [Recommendation.removeDuplicates d] else []) := by
  split_ifs <;> simp

theorem removeColumn_notin_fmt {l : List (String × FormatIssues)} {nm : String} {p : ℚ} :
    Recommendation.removeColumn nm p ∉ l.flatMap fmtRecRow := by
  intro h
  rw [List.mem_flatMap] at h
  obtain ⟨⟨nm1, iss⟩, _, hin⟩ := h
  simp only [fmtRecRow] at hin
  rw [List.mem_append] at hin
  rcases hin with hin | hin <;> revert hin <;> split_ifs <;> simp

theorem handleMissing_notin_fmt {l : List (String × FormatIssues)} {nm : String} {p : ℚ} :
    Recommendation.handleMissing nm p ∉ l.flatMap fmtRecRow := by
  intro h
  rw [List.mem_flatMap] at h
  obtain ⟨⟨nm1, iss⟩, _, hin⟩ := h
  simp only [fmtRecRow] at hin
  rw [List.mem_append] at hin
  rcases hin with hin | hin <;> revert hin <;> split_ifs <;> simp

theorem removeDuplicates_notin_null {l : List (String × Option ℚ)} {n : ℕ} :
    Recommendation.removeDuplicates n ∉ l.flatMap nullRecRow := by
  intro h
  rw [List.mem_flatMap] at h
  obtain ⟨⟨nm1, po⟩, _, hin⟩ := h
  cases po with
  | none => simp [nullRecRow] at hin
  | some q =>
      simp only [nullRecRow] at hin
      split_ifs at hin <;> simp at hin

theorem removeDuplicates_notin_fmt {l : List (String × FormatIssues)} {n : ℕ} :
    Recommendation.removeDuplicates n ∉ l.flatMap fmtRecRow := by
  intro h
  rw [List.mem_flatMap] at h
  obtain ⟨⟨nm1, iss⟩, _, hin⟩ := h
  simp only [fmtRecRow] at hin
  rw [List.mem_append] at hin
  rcases hin with hin | hin <;> revert hin <;> split_ifs <;> simp

theorem eq_of_mem_keysNodup {α β : Type} {l : List (α × β)}
    (h : (l.map Prod.fst).Nodup) {k : α} {a b : β}
    (h1 : (k, a) ∈ l) (h2 : (k, b) ∈ l) : a = b := by
  induction l with
  | nil => simp at h1
  | cons x t ih =>
      rw [List.map_cons, List.nodup_cons] at h
      rcases List.mem_cons.mp h1 with he1 | ht1
      · rcases List.mem_cons.mp h2 with he2 | ht2
        · have : (k, a) = (k, b) := he1.trans he2.symm
          exact (Prod.mk.injEq _ _ _ _ ▸ this).2
        · exfalso
          apply h.1
          rw [← he1]
          exact List.mem_map.mpr ⟨(k, b), ht2, rfl⟩
      · rcases List.mem_cons.mp h2 with he2 | ht2
        · exfalso
          apply h.1
          rw [← he2]
          exact List.mem_map.mpr ⟨(k, a), ht1, rfl⟩
        · exact ih h.2 ht1 ht2

theorem check_null_keys (ds : Dataset) :
    (check_null_values ds).map Prod.fst = ds.cols.map Column.name := by
  unfold check_null_values
  rw [List.map_map]
  rfl

/-- C9: the recommendation list equals the spec's clause-by-clause
description (removal above 50% nulls, handling at 0–50%, in column
order; then the duplicate-count clause; then the per-text-column
formatting clauses); a column never receives both a removal and a
handle-missing recommendation; and the duplicate recommendation occurs
exactly when the duplicate count is positive, naming that exact
count. -/
theorem generate_cleaning_recommendations_spec (ds : Dataset) (hwf : ds.Wf) :
    generate_cleaning_recommendations ds = recsSpec ds
    ∧ (∀ (nm : String) (p q : ℚ),
        Recommendation.removeColumn nm p ∈ generate_cleaning_recommendations ds →
        Recommendation.handleMissing nm q ∉ generate_cleaning_recommendations ds)
    ∧ (∀ n : ℕ,
        Recommendation.removeDuplicates n ∈ generate_cleaning_recommendations ds ↔
          0 < (check_duplicates ds).duplicate_rows
          ∧ n = (check_duplicates ds).duplicate_rows) := by
  refine ⟨?_, ?_, ?_⟩
  · unfold generate_cleaning_recommendations recsSpec
    rw [show nullRecRow = nullRecRowSpec from funext nullRecRow_eq_spec]
  · intro nm p q hrm hhm
    unfold generate_cleaning_recommendations at hrm hhm
    have h1 : (nm, some p) ∈ check_null_values ds ∧ 50 < p := by
      rcases List.mem_append.mp hrm with h | h
      · rcases List.mem_append.mp h with h | h
        · exact mem_nullRecs_removeColumn.mp h
        · exact absurd h removeColumn_notin_dup
      · exact absurd h removeColumn_notin_fmt
    have h2 : (nm, some q) ∈ check_null_values ds ∧ 0 < q ∧ ¬ 50 < q := by
      rcases List.mem_append.mp hhm with h | h
      · rcases List.mem_append.mp h with h | h
        · exact mem_nullRecs_handleMissing.mp h
        · exact absurd h handleMissing_notin_dup
      · exact absurd h handleMissing_notin_fmt
    have hk : ((check_null_values ds).map Prod.fst).Nodup := by
      rw [check_null_keys]; exact hwf.2
    have heq : (some p : Option ℚ) = some q := eq_of_mem_keysNodup hk h1.1 h2.1
    have hpq : p = q := Option.some.inj heq
    exact h2.2.2 (hpq ▸ h1.2)
  · intro n
    constructor
    · intro h
      unfold generate_cleaning_recommendations at h
      rcases List.mem_append.mp h with h | h
      · rcases List.mem_append.mp h with h | h
        · exact absurd h removeDuplicates_notin_null
        · revert h
          split_ifs with hd
          · intro h
            rw [List.mem_singleton] at h
            simp only [Recommendation.removeDuplicates.injEq] at h
            exact ⟨hd, h⟩
          · intro h; simp at h
      · exact absurd h removeDuplicates_notin_fmt
    · rintro ⟨hd, rfl⟩
      unfold generate_cleaning_recommendations
      apply List.mem_append.mpr
      left
      apply List.mem_append.mpr
      right
      rw [if_pos hd]
      exact List.mem_singleton.mpr rfl

/-- A dataset exercising all recommendation clauses: 66.67% nulls in
the numeric column, two cells with leading spaces and one mixed-case
cell in the text column. -/
def dsRecs : Dataset :=
  ⟨[Column.numeric "a" [some 1, none, none],
    Column.text "s" [some " x".data, some " x".data, some "Ab".data]]⟩

/-- Witness for C9 at a concrete dataset. -/
theorem generate_cleaning_recommendations_spec_witness :
    dsRecs.Wf ∧
      (generate_cleaning_recommendations dsRecs = recsSpec dsRecs
      ∧ (∀ (nm : String) (p q : ℚ),
          Recommendation.removeColumn nm p ∈ generate_cleaning_recommendations dsRecs →
          Recommendation.handleMissing nm q ∉ generate_cleaning_recommendations dsRecs)
      ∧ (∀ n : ℕ,
          Recommendation.removeDuplicates n ∈ generate_cleaning_recommendations dsRecs ↔
            0 < (check_duplicates dsRecs).duplicate_rows
            ∧ n = (check_duplicates dsRecs).duplicate_rows)) :=
  ⟨by decide, generate_cleaning_recommendations_spec dsRecs (by decide)⟩
